import Mathlib

/-!
Verification of the market-data core of the dataDrivenTradingDashboard
repository: a shallow embedding of the indicator engine
(`backend/services/userService.js`, analysis routes section), the market
data service (`backend/services/marketDataService.js`) and the route-level
cache (`userService.js`, market routes section), together with theorems
settling the spec claims about them.

JavaScript numbers are embedded as `Option ℚ`: `some q` is an ordinary
number, `none` stands for `NaN` (and for `undefined` appearing inside
arithmetic, since every arithmetic operation on `undefined` yields `NaN`).
Surfaced indicator values distinguish `null`, `undefined`, `NaN` and
real numbers through the `JSVal` type, mirroring the `!== null` checks
and `>`/`<` coercions of the source.
-/

/-- A JavaScript number: `some q` a finite rational, `none` = `NaN`
(also the result of arithmetic on `undefined`). -/
abbrev JSNum := Option ℚ

/-- JS `+` : `NaN` propagates. -/
def jsAdd : JSNum → JSNum → JSNum
  | some a, some b => some (a + b)
  | _, _ => none

/-- JS `-` : `NaN` propagates. -/
def jsSub : JSNum → JSNum → JSNum
  | some a, some b => some (a - b)
  | _, _ => none

/-- JS `*` : `NaN` propagates. -/
def jsMul : JSNum → JSNum → JSNum
  | some a, some b => some (a * b)
  | _, _ => none

/-- JS `/` : `NaN` propagates; division by zero is not produced on any
reachable path of the embedded code (divisors are positive constants),
so it is mapped to `none` as well. -/
def jsDiv : JSNum → JSNum → JSNum
  | some a, some b => if b = 0 then none else some (a / b)
  | _, _ => none

/-- The JS `reduce((a, b) => a + b, 0)` over a JS array of numbers. -/
def jsSum (l : List JSNum) : JSNum := l.foldl jsAdd (some 0)

/-- JS `>` on numbers: any comparison involving `NaN` is `false`. -/
def jsGt : JSNum → JSNum → Bool
  | some a, some b => decide (b < a)
  | _, _ => false

/-- JS `<` on numbers: any comparison involving `NaN` is `false`. -/
def jsLt : JSNum → JSNum → Bool
  | some a, some b => decide (a < b)
  | _, _ => false

/-- JS array indexing with an integer index: out-of-range or negative
access yields `undefined`, which behaves as `NaN` (`none`) in the
arithmetic that consumes it. -/
def jsIndex (l : List JSNum) (i : ℤ) : JSNum :=
  if i < 0 then none else ((l.get? i.toNat).join)

/-- A surfaced JS value as inspected by the sentiment route: `null`,
`undefined`, `NaN`, or a finite number. -/
inductive JSVal where
  | null
  | undefined
  | num (q : ℚ)
  | nan
deriving DecidableEq, Repr

/-- Numeric coercion used by JS relational operators: `null` coerces to
`0`, `undefined` and `NaN` poison the comparison. -/
def JSVal.toNum : JSVal → Option ℚ
  | .null => some 0
  | .undefined => none
  | .nan => none
  | .num q => some q

/-- JS `>` on surfaced values (with `null → 0` coercion). -/
def jsvGt (a b : JSVal) : Bool :=
  match a.toNum, b.toNum with
  | some x, some y => decide (y < x)
  | _, _ => false

/-- JS `<` on surfaced values (with `null → 0` coercion). -/
def jsvLt (a b : JSVal) : Bool :=
  match a.toNum, b.toNum with
  | some x, some y => decide (x < y)
  | _, _ => false

/-- The helper `getLatestValue = (arr) => arr ? arr[arr.length - 1] : null` from
`calculateIndicators`: a `null`/`undefined` array gives `null`, an empty
array gives `undefined`, otherwise the last element (number or `NaN`). -/
def getLatestValue : Option (List JSNum) → JSVal
  | none => .null
  | some l =>
    match l.getLast? with
    | none => .undefined
    | some (some q) => .num q
    | some none => .nan

/-- One OHLCV document of the `MarketData` Mongo collection
(`marketDataService.js`).  The schema has exactly the fields below; in
particular there is no `macd` field on a stored bar. -/
structure Bar where
  symbol : String
  timestamp : ℚ
  open_ : ℚ
  high : ℚ
  low : ℚ
  close : ℚ
  volume : ℤ
  source : String
deriving DecidableEq, Repr

/-- The function `calculateSMA(data, periods)` from `calculateIndicators`: `null` when
the series is shorter than the period, else the list of trailing-window
means. -/
def calculateSMA (data : List JSNum) (periods : ℕ) : Option (List JSNum) :=
  if data.length < periods then none
  else some ((List.range (data.length - periods + 1)).map fun j =>
    jsDiv (jsSum ((data.drop j).take periods)) (some periods))

/-- The EMA recurrence loop: `result = [ema]; for each x, ema = x*k +
ema*(1-k); result.push(ema)`. -/
def emaRec (k : ℚ) : JSNum → List JSNum → List JSNum
  | e, [] => [e]
  | e, x :: xs => e :: emaRec k (jsAdd (jsMul x (some k)) (jsMul e (some (1 - k)))) xs

/-- The function `calculateEMA(data, periods)` from `calculateIndicators`: `null` when
the series is shorter than the period, else the EMA sequence seeded with
the SMA of the first `periods` values, `k = 2/(periods+1)`. -/
def calculateEMA (data : List JSNum) (periods : ℕ) : Option (List JSNum) :=
  if data.length < periods then none
  else some (emaRec (2 / ((periods : ℚ) + 1))
    (jsDiv (jsSum (data.take periods)) (some (periods : ℚ)))
    (data.drop periods))

/-- The period-over-period deltas `changes[i] = data[i+1] - data[i]`. -/
def jsChanges (data : List JSNum) : List JSNum :=
  List.zipWith jsSub data.tail data

/-- One step of the `forEach` accumulation of `calculateRSI`:
`gains += change` when `change > 0`, else `losses -= change`. -/
def glStep (gl : JSNum × JSNum) (c : JSNum) : JSNum × JSNum :=
  if jsGt c (some 0) then (jsAdd gl.1 c, gl.2) else (gl.1, jsSub gl.2 c)

/-- The `forEach` accumulation of `calculateRSI`, both sums starting
at `0`. -/
def gainsLosses (w : List JSNum) : JSNum × JSNum :=
  w.foldl glStep (some 0, some 0)

/-- One iteration of the RSI loop at index `i`: window
`changes.slice(i - periods, i)`, `RSI = 100` when the average loss is
exactly zero, else `100 - 100/(1 + avgGain/avgLoss)`. -/
def rsiAt (changes : List JSNum) (periods i : ℕ) : JSNum :=
  let w := (changes.drop (i - periods)).take periods
  let gl := gainsLosses w
  let avgGain := jsDiv gl.1 (some (periods : ℚ))
  let avgLoss := jsDiv gl.2 (some (periods : ℚ))
  if avgLoss = some 0 then some 100
  else jsSub (some 100) (jsDiv (some 100) (jsAdd (some 1) (jsDiv avgGain avgLoss)))

/-- The function `calculateRSI(data, periods)` from `calculateIndicators`: `null` when
`data.length <= periods`, else the value list of the loop
`for (i = periods; i < changes.length; i++)`. -/
def calculateRSI (data : List JSNum) (periods : ℕ) : Option (List JSNum) :=
  if data.length ≤ periods then none
  else some ((List.range' periods (data.length - 1 - periods)).map
    (rsiAt (jsChanges data) periods))

/-- The MACD-line loop of `calculateMACD`, verbatim: for each index `i`
of the fast EMA, when `i >= emaSlow.length - emaFast.length` push
`emaFast[i] - emaSlow[i - (emaSlow.length - emaFast.length)]`.  (All
index arithmetic is over JS numbers, hence over `ℤ` here, and
out-of-range access yields `undefined`/`NaN`.) -/
def macdLineJS (ef es : List JSNum) : List JSNum :=
  (List.range ef.length).filterMap fun i =>
    if (es.length : ℤ) - (ef.length : ℤ) ≤ (i : ℤ) then
      some (jsSub (jsIndex ef (i : ℤ))
        (jsIndex es ((i : ℤ) - ((es.length : ℤ) - (ef.length : ℤ)))))
    else none

/-- The function `calculateMACD(data, fast, slow, signal)` from `calculateIndicators`:
`null` when `data.length < max(fast, slow) + signal`; else the
`(macdLine, signalLine, histogram)` triple, where the signal line is the
EMA of the MACD line and
`histogram[i] = macdLine[i + (macdLine.length - signalLine.length)] -
signalLine[i]`.  Under the guard both EMAs are non-null, so the `getD`
defaults are never taken. -/
def calculateMACD (data : List JSNum) (fast slow sig : ℕ) :
    Option (List JSNum × List JSNum × List JSNum) :=
  if data.length < max fast slow + sig then none
  else
    let ef := (calculateEMA data fast).getD []
    let es := (calculateEMA data slow).getD []
    let ml := macdLineJS ef es
    let sl := (calculateEMA ml sig).getD []
    let hist := (List.range sl.length).map fun i =>
      jsSub (jsIndex ml ((i : ℤ) + ((ml.length : ℤ) - (sl.length : ℤ)))) (jsIndex sl (i : ℤ))
    some (ml, sl, hist)

/-- The record returned by `calculateIndicators`: the latest value of
each derived sequence. -/
structure Indicators where
  sma20 : JSVal
  sma50 : JSVal
  ema12 : JSVal
  ema26 : JSVal
  rsi : JSVal
  macdLine : JSVal
  macdSignal : JSVal
  macdHist : JSVal
deriving DecidableEq, Repr

/-- The function `calculateIndicators(marketData)` from the analysis routes: extracts
the close prices and surfaces the latest value of each indicator.  An
empty input returns `{}`, whose field accesses all give `undefined`. -/
def calculateIndicators (marketData : List Bar) : Indicators :=
  if marketData = [] then ⟨.undefined, .undefined, .undefined, .undefined, .undefined, .undefined, .undefined, .undefined⟩
  else
    let closes : List JSNum := marketData.map fun b => some b.close
    let macd := calculateMACD closes 12 26 9
    { sma20 := getLatestValue (calculateSMA closes 20)
      sma50 := getLatestValue (calculateSMA closes 50)
      ema12 := getLatestValue (calculateEMA closes 12)
      ema26 := getLatestValue (calculateEMA closes 26)
      rsi := getLatestValue (calculateRSI closes 14)
      macdLine := getLatestValue (macd.map (·.1))
      macdSignal := getLatestValue (macd.map (·.2.1))
      macdHist := getLatestValue (macd.map (·.2.2)) }

/-- The `macd?.histogram` access on a stored bar in the sentiment route
(`marketData[marketData.length - 2].macd?.histogram`): a `MarketData`
document has no `macd` field (see `Bar` and the Mongo schema), so the
optional chain always evaluates to `undefined`. -/
def barMacdHistogram : Bar → JSVal := fun _ => .undefined

/-- The "histogram acceleration" contribution of the sentiment route
(`router.get('/sentiment')`): inside the MACD block (line and signal not
`null`), when the histogram is not `null`, add `+0.5` if
`histogram > 0 && histogram > prevHist` and `-0.5` if
`histogram < 0 && histogram < prevHist`, where `prevHist` is the value
of `marketData[len - 2].macd?.histogram`. -/
def histogramAccelBonus (ind : Indicators) (prevHist : JSVal) : ℚ :=
  if ind.macdLine ≠ JSVal.null ∧ ind.macdSignal ≠ JSVal.null then
    if ind.macdHist ≠ JSVal.null then
      if jsvGt ind.macdHist (JSVal.num 0) ∧ jsvGt ind.macdHist prevHist then 1/2
      else if jsvLt ind.macdHist (JSVal.num 0) ∧ jsvLt ind.macdHist prevHist then -1/2
      else 0
    else 0
  else 0

/-- Symbol pattern of the Mongo schema: `/^[A-Z0-9.]{1,10}$/` (the field
is uppercased before validation). -/
def storeSymbolOk (s : String) : Bool :=
  decide (1 ≤ s.length) && decide (s.length ≤ 10) &&
    s.data.all fun c => (c.isUpper || c.isDigit || c == '.')

/-- The `source` enum of the Mongo schema. -/
def storeSourceOk (s : String) : Bool :=
  s == "SIMULATED" || s == "ALPHA_VANTAGE" || s == "YAHOO" || s == "IEX" || s == "CUSTOM"

/-- The document validation performed on save by `MarketDataSchema`:
field validators `open > 0`, `high >= open`, `low <= open`, `close > 0`,
`volume >= 0`, the symbol pattern and source enum, plus the pre-save
hook `high >= low`.  Note the high/low validators compare against
`open` only, never against `close`. -/
def marketDataValidate (b : Bar) : Bool :=
  storeSymbolOk b.symbol && storeSourceOk b.source &&
    decide (0 < b.open_) && decide (b.open_ ≤ b.high) && decide (b.low ≤ b.open_) &&
    decide (0 < b.close) && decide (0 ≤ b.volume) && decide (b.low ≤ b.high)

inductive SaveError where
  | validation
  | duplicateKey
deriving DecidableEq, Repr

/-- Persisting one `MarketData` document: schema validation, then the
unique `(symbol, timestamp)` index. -/
def saveBar (store : List Bar) (b : Bar) : Except SaveError (List Bar) :=
  if ¬ marketDataValidate b then .error .validation
  else if store.any (fun x => x.symbol == b.symbol && decide (x.timestamp = b.timestamp)) then
    .error .duplicateKey
  else .ok (store ++ [b])

/-- One index's worth of randomness consumed by a generator iteration:
`r1 ... r5` model successive `Math.random()` draws (each in `[0,1)`) and
`s30`, `s8` model `Math.sin(i/30)` and `Math.sin(i/8)` (each in
`[-1,1]`). -/
structure Draw where
  r1 : ℚ
  r2 : ℚ
  r3 : ℚ
  r4 : ℚ
  r5 : ℚ
  s30 : ℚ
  s8 : ℚ
deriving DecidableEq, Repr

def ValidDraw (d : Draw) : Prop :=
  0 ≤ d.r1 ∧ d.r1 < 1 ∧ 0 ≤ d.r2 ∧ d.r2 < 1 ∧ 0 ≤ d.r3 ∧ d.r3 < 1 ∧
    0 ≤ d.r4 ∧ d.r4 < 1 ∧ 0 ≤ d.r5 ∧ d.r5 < 1 ∧ |d.s30| ≤ 1 ∧ |d.s8| ≤ 1

instance (d : Draw) : Decidable (ValidDraw d) := by unfold ValidDraw; infer_instance

/-- The ambient nondeterminism of the generators: per-index draws, the
clock `now` (milliseconds), and the two irrational square roots the code
computes, passed as parameters: `q288` models `Math.sqrt(1/288)` and
`s19656` models `Math.sqrt(252 * 78)`. -/
structure Env where
  draws : ℕ → Draw
  now : ℚ
  q288 : ℚ
  s19656 : ℚ

/-- What the real draws satisfy: every `Math.random()` is in `[0,1)`,
every sine is in `[-1,1]`, `√(1/288)` is nonnegative with square
`≤ 1/288`, and `√19656` is nonnegative with square `≥ 19600`. -/
def ValidEnv (env : Env) : Prop :=
  (∀ i, ValidDraw (env.draws i)) ∧
    0 ≤ env.q288 ∧ env.q288 * env.q288 ≤ 1/288 ∧
    0 ≤ env.s19656 ∧ 19600 ≤ env.s19656 * env.s19656

/-- The symbol → base price table shared by all generators. -/
def basePriceOf (sym : String) : ℚ :=
  if sym = "SPY" then 450
  else if sym = "AAPL" then 180
  else if sym = "MSFT" then 350
  else if sym = "GOOGL" then 140
  else if sym = "AMZN" then 175
  else 100

/-- The `i`-th bar built by `generateSampleData`: sinusoidal trend plus
noise, `volatilityFactor = 0.015 * sqrt(1/288)`, open/high/low derived
from the close with a `0.2%` range. -/
def sampleBar (env : Env) (sym : String) (numPoints i : ℕ) : Bar :=
  let d := env.draws i
  let base := basePriceOf sym
  let noise := d.s30 * 3 + d.s8 * 2 + (d.r1 - 1/2) * (3/2)
  let volatilityFactor := (15/1000) * env.q288
  let close := base * (1 + noise * volatilityFactor)
  let range := close * (2/1000)
  let o := close - (d.r2 - 1/2) * range
  { symbol := sym
    timestamp := env.now - (((numPoints : ℚ) - (i : ℚ)) * 5 * 60000)
    open_ := o
    high := max close o + d.r3 * range
    low := min close o - d.r4 * range
    close := close
    volume := Int.floor ((50000 : ℚ) + d.r5 * 150000)
    source := "SIMULATED" }

/-- The bars inserted by `generateSampleData(symbol, numPoints)` when the
store holds no data for the symbol. -/
def generateSampleBars (env : Env) (sym : String) (numPoints : ℕ) : List Bar :=
  (List.range numPoints).map (sampleBar env sym numPoints)

/-- The `i`-th bar of `generateSimulatedData`: same shape as
`sampleBar` but with the constant `volatilityFactor = 0.001`. -/
def simulatedBar (env : Env) (sym : String) (numPoints i : ℕ) : Bar :=
  let d := env.draws i
  let base := basePriceOf sym
  let noise := d.s30 * 3 + d.s8 * 2 + (d.r1 - 1/2) * (3/2)
  let volatilityFactor := (1/1000 : ℚ)
  let close := base * (1 + noise * volatilityFactor)
  let range := close * (2/1000)
  let o := close - (d.r2 - 1/2) * range
  { symbol := sym
    timestamp := env.now - (((numPoints : ℚ) - (i : ℚ)) * 5 * 60000)
    open_ := o
    high := max close o + d.r3 * range
    low := min close o - d.r4 * range
    close := close
    volume := Int.floor ((50000 : ℚ) + d.r5 * 150000)
    source := "SIMULATED" }

/-- The function `generateSimulatedData(symbol, numPoints)`: the fallback generator.
Its internal `try`/`catch` turns its own validation failures into an
empty array, so invalid inputs yield `[]`. -/
def generateSimulatedData (env : Env) (sym : String) (numPoints : ℤ) : List Bar :=
  if sym = "" ∨ numPoints ≤ 0 ∨ 1000 < numPoints then []
  else (List.range numPoints.toNat).map (simulatedBar env sym numPoints.toNat)

/-- One step of the geometric-Brownian-motion price walk of
`generateHistoricalSimulation`:
`price * (1 + drift + intervalVol * (random()*2 - 1))` with
`drift = 0.08/(252*78)` and `intervalVol = 0.15/sqrt(252*78)`. -/
def histSimStep (env : Env) (price : ℚ) (i : ℕ) : ℚ :=
  let d := env.draws i
  let intervalDrift := (8/100 : ℚ) / 19656
  let intervalVol := (15/100 : ℚ) / env.s19656
  price * (1 + intervalDrift + intervalVol * (d.r1 * 2 - 1))

/-- The bar built by `generateHistoricalSimulation` at index `i` from the
already-updated price. -/
def histSimBar (env : Env) (sym : String) (numPoints i : ℕ) (price : ℚ) : Bar :=
  let d := env.draws i
  let range := price * (2/1000)
  let o := price - (d.r2 - 1/2) * range
  { symbol := sym
    timestamp := env.now - (((numPoints : ℚ) - (i : ℚ)) * 5 * 60000)
    open_ := o
    high := max o price + d.r3 * range
    low := min o price - d.r4 * range
    close := price
    volume := Int.floor ((50000 : ℚ) + d.r5 * 150000)
    source := "SIMULATED" }

/-- The generation loop of `generateHistoricalSimulation`, by remaining
count. -/
def histSimGo (env : Env) (sym : String) (numPoints : ℕ) : ℚ → ℕ → ℕ → List Bar
  | _, _, 0 => []
  | price, i, rem + 1 =>
    let p := histSimStep env price i
    histSimBar env sym numPoints i p :: histSimGo env sym numPoints p (i + 1) rem

/-- The function `generateHistoricalSimulation(symbol, numPoints)`: long-horizon GBM
simulation starting from the symbol's base price, bypassing the store. -/
def generateHistoricalSimulation (env : Env) (sym : String) (numPoints : ℕ) : List Bar :=
  histSimGo env sym numPoints (basePriceOf sym) 0 numPoints

/-- The single new bar built by `fetchMarketData` from the previous bar:
`open = prevClose`, `volatilityFactor = 0.0007 * sqrt(elapsedMinutes)`
(`sqrtT` is that square root), a `0.1%` high/low range around
`prevClose`, and a uniform volume.  `d.r1` is the price-change draw,
`d.r2`/`d.r3` the high/low perturbations, `d.r4` the volume draw. -/
def fetchNewBar (sym : String) (prevClose now sqrtT : ℚ) (d : Draw) : Bar :=
  let volatilityFactor := (7/10000) * sqrtT
  let change := prevClose * (d.r1 - 1/2) * 2 * volatilityFactor
  let newClose := prevClose + change
  let range := prevClose * (1/1000)
  { symbol := sym
    timestamp := now
    open_ := prevClose
    high := max prevClose newClose + d.r2 * range
    low := min prevClose newClose - d.r3 * range
    close := newClose
    volume := Int.floor ((50000 : ℚ) + d.r4 * 150000)
    source := "SIMULATED" }

/-- The Bar invariants stated by the spec (§3): `high ≥ max(open, close)`,
`low ≤ min(open, close)`, all prices positive, volume nonnegative. -/
def BarOK (b : Bar) : Prop :=
  max b.open_ b.close ≤ b.high ∧ b.low ≤ min b.open_ b.close ∧
    0 < b.open_ ∧ 0 < b.high ∧ 0 < b.low ∧ 0 < b.close ∧ 0 ≤ b.volume

instance (b : Bar) : Decidable (BarOK b) := by unfold BarOK; infer_instance

/-- The Mongo query `find({symbol}).sort({timestamp: -1}).limit(limit)`:
bars of the symbol, sorted by descending timestamp, truncated. -/
def queryLatest (store : List Bar) (sym : String) (limit : ℕ) : List Bar :=
  ((store.filter fun b => b.symbol == sym).insertionSort
    fun a b => b.timestamp ≤ a.timestamp).take limit

/-- The function `generateSampleData(symbol, numPoints)` as a store transformer.
Validation errors and store (dependency) failures are thrown to the
caller; when data already exists for the symbol nothing is written,
otherwise `numPoints` fresh bars are inserted. `storeFail` models the
persistence dependency being unreachable (every Mongo call throws). -/
def generateSampleData (env : Env) (storeFail : Bool) (store : List Bar)
    (sym : String) (numPoints : ℤ) : Except Unit (List Bar) :=
  if sym = "" ∨ numPoints ≤ 0 ∨ 1000 < numPoints then .error ()
  else if storeFail then .error ()
  else if (store.filter fun b => b.symbol == sym) ≠ [] then .ok store
  else .ok (store ++ generateSampleBars env sym numPoints.toNat)

/-- The function `getLatestMarketData(symbol, limit)` as a function of the store
state.  Returns `(result, new store, number of generateSimulatedData
fallback calls)`.  All throws inside the `try` (input validation,
`generateSampleData`, the main query) are caught and answered with one
`generateSimulatedData(symbol, limit)` call, as is an empty query
result. -/
def getLatestMarketData (env : Env) (storeFail : Bool) (store : List Bar)
    (sym : String) (limit : ℤ) : List Bar × List Bar × ℕ :=
  if sym = "" ∨ limit ≤ 0 ∨ 1000 < limit then
    (generateSimulatedData env sym limit, store, 1)
  else
    match generateSampleData env storeFail store sym (max limit 100) with
    | .error _ => (generateSimulatedData env sym limit, store, 1)
    | .ok store1 =>
      if storeFail then (generateSimulatedData env sym limit, store1, 1)
      else
        let data := queryLatest store1 sym limit.toNat
        if data = [] then (generateSimulatedData env sym limit, store1, 1)
        else (data.reverse, store1, 0)

/-- The symbol pattern `/^[A-Za-z0-9.]{1,10}$/` enforced by
`validateRequest` (analysis routes) and the `symbolValidation` chain
(market routes). -/
def matchesSymbolPattern (s : String) : Bool :=
  decide (1 ≤ s.length) && decide (s.length ≤ 10) &&
    s.data.all fun c => (c.isAlphanum || c == '.')

/-- The reply of a read endpoint. -/
inductive ApiResult where
  | validationError
  | notFound
  | ok (bars : List Bar)
deriving DecidableEq, Repr

/-- The `GET /` latest-bars route: symbol validation middleware first
(HTTP 400 on pattern failure, before any service call), then
`getLatestMarketData`, answering 404 on an empty result.  Returns
`(reply, new store state, fallback-generator call count)`; an absent
symbol parameter defaults to `'SPY'`. -/
def latestBarsEndpoint (env : Env) (storeFail : Bool) (store : List Bar)
    (symbolParam : Option String) (limit : ℤ) : ApiResult × List Bar × ℕ :=
  match symbolParam with
  | some sym =>
    if matchesSymbolPattern sym = false then (.validationError, store, 0)
    else
      let r := getLatestMarketData env storeFail store sym limit
      (if r.1 = [] then .notFound else .ok r.1, r.2.1, r.2.2)
  | none =>
    let r := getLatestMarketData env storeFail store ("SPY") limit
    (if r.1 = [] then .notFound else .ok r.1, r.2.1, r.2.2)

/-- One entry of the `node-cache` instance of the market routes. -/
structure CacheEntry where
  key : String
  payload : String
  expiresAt : ℚ
deriving DecidableEq, Repr

/-- JS `String.prototype.includes`: substring containment. -/
def jsIncludes (s pat : String) : Bool :=
  (List.range (s.length + 1)).any fun i => (s.drop i).startsWith pat

/-- The operation `cache.del(key)`: remove the entry stored under `key`. -/
def cacheDel (c : List CacheEntry) (k : String) : List CacheEntry :=
  c.filter fun e => ¬ (e.key = k)

/-- The function `invalidateCache(pattern)` from the market routes: collect every
cache key containing the pattern, then delete each of them. -/
def invalidateCache (pat : String) (c : List CacheEntry) : List CacheEntry :=
  ((c.map (·.key)).filter fun k => jsIncludes k pat).foldl cacheDel c

/-- A degenerate but valid environment: every random draw is `0`, every
sine is `0`, `now = 0`, `√(1/288)` modelled as `0` and `√19656` as
`140`. -/
def draw0 : Draw := ⟨0, 0, 0, 0, 0, 0, 0⟩

def env0 : Env := ⟨fun _ => draw0, 0, 0, 140⟩

theorem env0_valid : ValidEnv env0 := by
  refine ⟨fun i => ?_, ?_, ?_, ?_, ?_⟩
  · show ValidDraw draw0
    decide
  all_goals norm_num [env0]

/-- C1: for every closing-price series long enough for MACD(12,26,9) the
spec says `calculateIndicators` surfaces well-defined latest MACD
values with `histogram = line - signal`; evaluating the code on 35 and
on 50 bars closing at 100 shows all three surfaced MACD values are
`NaN`: the MACD-line loop indexes the slow EMA past its end because
`emaSlow.length - emaFast.length` is negative, so the last MACD-line
entry is always `NaN` and poisons the signal line and histogram. -/
theorem c1_macd_latest_values_nan :
    (calculateIndicators (List.replicate 35 ⟨"SPY", 0, 100, 100, 100, 100, 1000, "SIMULATED"⟩)).macdLine = JSVal.nan ∧
    (calculateIndicators (List.replicate 35 ⟨"SPY", 0, 100, 100, 100, 100, 1000, "SIMULATED"⟩)).macdSignal = JSVal.nan ∧
    (calculateIndicators (List.replicate 35 ⟨"SPY", 0, 100, 100, 100, 100, 1000, "SIMULATED"⟩)).macdHist = JSVal.nan ∧
    (calculateIndicators (List.replicate 50 ⟨"SPY", 0, 100, 100, 100, 100, 1000, "SIMULATED"⟩)).macdLine = JSVal.nan ∧
    (calculateIndicators (List.replicate 50 ⟨"SPY", 0, 100, 100, 100, 100, 1000, "SIMULATED"⟩)).macdSignal = JSVal.nan ∧
    (calculateIndicators (List.replicate 50 ⟨"SPY", 0, 100, 100, 100, 100, 1000, "SIMULATED"⟩)).macdHist = JSVal.nan := by
  decide

theorem jsvGt_undefined (a : JSVal) : jsvGt a JSVal.undefined = false := by
  cases a <;> rfl

theorem jsvLt_undefined (a : JSVal) : jsvLt a JSVal.undefined = false := by
  cases a <;> rfl

/-- C2: the `±0.5` histogram-acceleration contribution of the sentiment
route compares the computed histogram with
`marketData[len-2].macd?.histogram`; a stored bar has no `macd` field,
so that operand is `undefined`, both strict comparisons are `false`,
and the bonus is never added, whatever the indicator values are. -/
theorem c2_histogram_bonus_never_fires (ind : Indicators) (b : Bar) :
    histogramAccelBonus ind (barMacdHistogram b) = 0 := by
  unfold histogramAccelBonus barMacdHistogram
  simp [jsvGt_undefined, jsvLt_undefined]

/-- C4: the store's save validation compares `high` and `low` only with
`open`, so the bar `(open 10, high 10, low 9, close 12)` — whose high is
strictly below `max(open, close) = 12` — passes validation and is
persisted instead of being rejected. -/
theorem c4_store_accepts_bar_with_close_outside_range :
    marketDataValidate ⟨"SPY", 0, 10, 10, 9, 12, 1000, "SIMULATED"⟩ = true ∧
    saveBar [] ⟨"SPY", 0, 10, 10, 9, 12, 1000, "SIMULATED"⟩ =
      Except.ok [⟨"SPY", 0, 10, 10, 9, 12, 1000, "SIMULATED"⟩] ∧
    (10 : ℚ) < max (10 : ℚ) (12 : ℚ) := by
  refine ⟨by decide, ?_, by norm_num⟩
  rfl

/-- C7: a request whose symbol fails `/^[A-Za-z0-9.]{1,10}$/` is answered
with a validation error by the route middleware before the handler runs:
the store is untouched and the fallback generator is never invoked. -/
theorem c7_invalid_symbol_rejected_without_side_effects
    (env : Env) (storeFail : Bool) (store : List Bar) (sym : String) (limit : ℤ)
    (h : matchesSymbolPattern sym = false) :
    latestBarsEndpoint env storeFail store (some sym) limit =
      (ApiResult.validationError, store, 0) := by
  simp [latestBarsEndpoint, h]

theorem c7_witness :
    matchesSymbolPattern ("INVALID123456") = false ∧
    latestBarsEndpoint env0 false [] (some ("INVALID123456")) 10 =
      (ApiResult.validationError, [], 0) :=
  ⟨by decide,
    c7_invalid_symbol_rejected_without_side_effects env0 false [] "INVALID123456" 10 (by decide)⟩

theorem mem_foldl_cacheDel (ks : List String) (c : List CacheEntry) (e : CacheEntry) :
    e ∈ ks.foldl cacheDel c ↔ e ∈ c ∧ e.key ∉ ks := by
  induction ks generalizing c with
  | nil => simp
  | cons k ks ih =>
    rw [List.foldl_cons, ih]
    unfold cacheDel
    simp only [List.mem_filter, List.mem_cons, decide_eq_true_eq]
    tauto

/-- C8: `invalidateCache(pattern)` deletes exactly the entries whose key
contains the pattern as a substring; every other entry (with its payload
and expiry) is still in the cache afterwards. -/
theorem c8_invalidateCache_exact (pat : String) (c : List CacheEntry) (e : CacheEntry) :
    e ∈ invalidateCache pat c ↔ e ∈ c ∧ jsIncludes e.key pat = false := by
  unfold invalidateCache
  rw [mem_foldl_cacheDel]
  constructor
  · rintro ⟨he, hk⟩
    refine ⟨he, ?_⟩
    rcases h : jsIncludes e.key pat with _ | _
    · rfl
    · exact absurd (List.mem_filter.2 ⟨List.mem_map_of_mem _ he, h⟩) hk
  · rintro ⟨he, hfalse⟩
    refine ⟨he, fun hk => ?_⟩
    have h2 := (List.mem_filter.1 hk).2
    rw [hfalse] at h2
    exact Bool.false_ne_true h2

theorem jsChanges_cons (a b : ℚ) (t : List ℚ) :
    jsChanges ((a :: b :: t).map some) = some (b - a) :: jsChanges ((b :: t).map some) := rfl

theorem jsChanges_pos {l : List ℚ} (h : l.Chain' (· < ·)) :
    ∀ c ∈ jsChanges (l.map some), ∃ q : ℚ, c = some q ∧ 0 < q := by
  induction l with
  | nil => intro c hc; simp [jsChanges] at hc
  | cons a t ih =>
    cases t with
    | nil => intro c hc; simp [jsChanges] at hc
    | cons b t' =>
      rw [List.chain'_cons] at h
      intro c hc
      rw [jsChanges_cons, List.mem_cons] at hc
      rcases hc with hc | hc
      · exact ⟨b - a, hc, by linarith [h.1]⟩
      · exact ih h.2 c hc

theorem jsChanges_neg {l : List ℚ} (h : l.Chain' (· > ·)) :
    ∀ c ∈ jsChanges (l.map some), ∃ q : ℚ, c = some q ∧ q < 0 := by
  induction l with
  | nil => intro c hc; simp [jsChanges] at hc
  | cons a t ih =>
    cases t with
    | nil => intro c hc; simp [jsChanges] at hc
    | cons b t' =>
      rw [List.chain'_cons] at h
      intro c hc
      rw [jsChanges_cons, List.mem_cons] at hc
      rcases hc with hc | hc
      · exact ⟨b - a, hc, by have := h.1; simp only [gt_iff_lt] at this; linarith⟩
      · exact ih h.2 c hc

theorem foldl_glStep_pos (w : List JSNum)
    (hw : ∀ c ∈ w, ∃ q : ℚ, c = some q ∧ 0 < q) :
    ∀ g : JSNum, (w.foldl glStep (g, some 0)).2 = some 0 := by
  induction w with
  | nil => intro g; rfl
  | cons c w' ih =>
    intro g
    obtain ⟨q, rfl, hq⟩ := hw _ (List.mem_cons_self _ _)
    rw [List.foldl_cons]
    have hs : glStep (g, some 0) (some q) = (jsAdd g (some q), some 0) := by
      unfold glStep jsGt
      simp [hq]
    rw [hs]
    exact ih (fun c hc => hw c (List.mem_cons_of_mem _ hc)) _

theorem foldl_glStep_neg (w : List JSNum)
    (hw : ∀ c ∈ w, ∃ q : ℚ, c = some q ∧ q < 0) :
    ∀ (g : JSNum) (L : ℚ), 0 ≤ L →
      ∃ M : ℚ, w.foldl glStep (g, some L) = (g, some M) ∧ L ≤ M ∧ (w ≠ [] → 0 < M) := by
  induction w with
  | nil =>
    intro g L hL
    exact ⟨L, rfl, le_refl _, fun hne => absurd rfl hne⟩
  | cons c w' ih =>
    intro g L hL
    obtain ⟨q, rfl, hq⟩ := hw _ (List.mem_cons_self _ _)
    rw [List.foldl_cons]
    have hs : glStep (g, some L) (some q) = (g, some (L - q)) := by
      unfold glStep jsGt jsSub
      simp [not_lt.2 (le_of_lt hq)]
    rw [hs]
    obtain ⟨M, hM, hLM, _⟩ :=
      ih (fun c hc => hw c (List.mem_cons_of_mem _ hc)) g (L - q) (by linarith)
    exact ⟨M, hM, by linarith, fun _ => by linarith⟩

theorem rsiAt_all_gains (changes : List JSNum) (i : ℕ)
    (h : ∀ c ∈ changes, ∃ q : ℚ, c = some q ∧ 0 < q) :
    rsiAt changes 14 i = some 100 := by
  have hw : ∀ c ∈ (changes.drop (i - 14)).take 14, ∃ q : ℚ, c = some q ∧ 0 < q :=
    fun c hc => h c (List.mem_of_mem_drop (List.mem_of_mem_take hc))
  have key : (gainsLosses ((changes.drop (i - 14)).take 14)).2 = some 0 :=
    foldl_glStep_pos _ hw (some 0)
  unfold rsiAt
  dsimp only
  rw [key]
  norm_num [jsDiv]

theorem rsiAt_all_losses (changes : List JSNum) (i : ℕ)
    (h : ∀ c ∈ changes, ∃ q : ℚ, c = some q ∧ q < 0)
    (hlen : i - 14 < changes.length) :
    rsiAt changes 14 i = some 0 := by
  have hw : ∀ c ∈ (changes.drop (i - 14)).take 14, ∃ q : ℚ, c = some q ∧ q < 0 :=
    fun c hc => h c (List.mem_of_mem_drop (List.mem_of_mem_take hc))
  have hne : (changes.drop (i - 14)).take 14 ≠ [] := by
    have h1 : 0 < (changes.drop (i - 14)).length := by
      rw [List.length_drop]; omega
    have h2 : 0 < ((changes.drop (i - 14)).take 14).length := by
      rw [List.length_take]; omega
    exact List.ne_nil_of_length_pos h2
  obtain ⟨M, hM, hLM, hMpos⟩ := foldl_glStep_neg _ hw (some 0) 0 (le_refl _)
  have key : gainsLosses ((changes.drop (i - 14)).take 14) = (some 0, some M) := hM
  have hMp := hMpos hne
  have hM14 : (M : ℚ) / 14 ≠ 0 := by positivity
  unfold rsiAt
  dsimp only
  rw [key]
  norm_num [jsDiv, jsAdd, jsSub, hM14]

theorem jsChanges_map_length (l : List ℚ) :
    (jsChanges (l.map some)).length = l.length - 1 := by
  simp [jsChanges]

/-- C5: `calculateRSI` over a strictly increasing close series (long
enough for RSI(14)) surfaces `100` as its most recent value (the
zero-average-loss branch), and `0` over a strictly decreasing series. -/
theorem c5_rsi_extremes (closes : List ℚ) :
    (closes.Chain' (· < ·) → 16 ≤ closes.length →
      getLatestValue (calculateRSI (closes.map some) 14) = JSVal.num 100) ∧
    (closes.Chain' (· > ·) → 16 ≤ closes.length →
      getLatestValue (calculateRSI (closes.map some) 14) = JSVal.num 0) := by
  have hn : (closes.map some).length = closes.length := List.length_map _ _
  constructor
  · intro hch hlen
    have hguard : ¬ ((closes.map some).length ≤ 14) := by omega
    unfold calculateRSI
    rw [if_neg hguard]
    have hall : ∀ x ∈ (List.range' 14 ((closes.map some).length - 1 - 14)).map
        (rsiAt (jsChanges (closes.map some)) 14), x = some 100 := by
      intro x hx
      obtain ⟨i, _, rfl⟩ := List.mem_map.1 hx
      exact rsiAt_all_gains _ i (jsChanges_pos hch)
    have hne : (List.range' 14 ((closes.map some).length - 1 - 14)).map
        (rsiAt (jsChanges (closes.map some)) 14) ≠ [] := by
      apply List.ne_nil_of_length_pos
      rw [List.length_map, List.length_range']
      omega
    have hlast := List.getLast?_eq_getLast _ hne
    rw [hall _ (List.getLast_mem hne)] at hlast
    simp only [getLatestValue]
    rw [hlast]
  · intro hch hlen
    have hguard : ¬ ((closes.map some).length ≤ 14) := by omega
    unfold calculateRSI
    rw [if_neg hguard]
    have hclen : (jsChanges (closes.map some)).length = closes.length - 1 :=
      jsChanges_map_length closes
    have hall : ∀ x ∈ (List.range' 14 ((closes.map some).length - 1 - 14)).map
        (rsiAt (jsChanges (closes.map some)) 14), x = some 0 := by
      intro x hx
      obtain ⟨i, hi, rfl⟩ := List.mem_map.1 hx
      obtain ⟨k, hk, rfl⟩ := List.mem_range'.1 hi
      refine rsiAt_all_losses _ _ (jsChanges_neg hch) ?_
      omega
    have hne : (List.range' 14 ((closes.map some).length - 1 - 14)).map
        (rsiAt (jsChanges (closes.map some)) 14) ≠ [] := by
      apply List.ne_nil_of_length_pos
      rw [List.length_map, List.length_range']
      omega
    have hlast := List.getLast?_eq_getLast _ hne
    rw [hall _ (List.getLast_mem hne)] at hlast
    simp only [getLatestValue]
    rw [hlast]

theorem c5_witness :
    getLatestValue (calculateRSI
      (([0, 1, 2, 3, 4, 5, 6, 7, 8, 9, 10, 11, 12, 13, 14, 15] : List ℚ).map some) 14) =
      JSVal.num 100 ∧
    getLatestValue (calculateRSI
      (([16, 15, 14, 13, 12, 11, 10, 9, 8, 7, 6, 5, 4, 3, 2, 1] : List ℚ).map some) 14) =
      JSVal.num 0 :=
  ⟨(c5_rsi_extremes _).1 (by norm_num [List.chain'_cons]) (by norm_num),
   (c5_rsi_extremes _).2 (by norm_num [List.chain'_cons]) (by norm_num)⟩

theorem basePriceOf_pos (sym : String) : 0 < basePriceOf sym := by
  unfold basePriceOf
  split_ifs <;> norm_num

theorem volumeFloor_nonneg (r : ℚ) (hr : 0 ≤ r) :
    (0 : ℤ) ≤ Int.floor ((50000 : ℚ) + r * 150000) := by
  apply Int.le_floor.2
  push_cast
  nlinarith

theorem one_plus_noise_pos (noise vf : ℚ) (hn1 : -6 ≤ noise) (hn2 : noise ≤ 6)
    (hv1 : 0 ≤ vf) (hv2 : vf ≤ 1/1000) : 0 < 1 + noise * vf := by
  have h1 : -6 * vf ≤ noise * vf := mul_le_mul_of_nonneg_right hn1 hv1
  nlinarith

theorem genShapeOK (c r2 r3 r4 : ℚ) (hc : 0 < c)
    (h2a : 0 ≤ r2) (h2b : r2 < 1) (h3a : 0 ≤ r3) (h3b : r3 < 1)
    (h4a : 0 ≤ r4) (h4b : r4 < 1) :
    0 < c - (r2 - 1/2) * (c * (2/1000)) ∧
    0 < min c (c - (r2 - 1/2) * (c * (2/1000))) - r4 * (c * (2/1000)) ∧
    0 ≤ r3 * (c * (2/1000)) ∧ 0 ≤ r4 * (c * (2/1000)) := by
  have hrange : 0 < c * (2/1000) := by nlinarith
  refine ⟨by nlinarith, ?_, by positivity, by positivity⟩
  have hmin : c - (1/2) * (c * (2/1000)) ≤ min c (c - (r2 - 1/2) * (c * (2/1000))) := by
    apply le_min
    · nlinarith
    · nlinarith
  nlinarith [mul_lt_mul_of_pos_right h4b hrange]

/-- Invariants for a bar of the backfill/fallback shape: high is
`max(close, open)` plus a nonnegative perturbation, low is
`min(close, open)` minus one. -/
theorem genBarOK (sym src : String) (ts c r2 r3 r4 r5 : ℚ) (hc : 0 < c)
    (h2a : 0 ≤ r2) (h2b : r2 < 1) (h3a : 0 ≤ r3) (h3b : r3 < 1)
    (h4a : 0 ≤ r4) (h4b : r4 < 1) (h5a : 0 ≤ r5) :
    BarOK ⟨sym, ts, c - (r2 - 1/2) * (c * (2/1000)),
      max c (c - (r2 - 1/2) * (c * (2/1000))) + r3 * (c * (2/1000)),
      min c (c - (r2 - 1/2) * (c * (2/1000))) - r4 * (c * (2/1000)),
      c, Int.floor ((50000 : ℚ) + r5 * 150000), src⟩ := by
  obtain ⟨ho, hlo, h3r, h4r⟩ := genShapeOK c r2 r3 r4 hc h2a h2b h3a h3b h4a h4b
  unfold BarOK
  dsimp only
  refine ⟨?_, ?_, ho, ?_, hlo, hc, volumeFloor_nonneg r5 h5a⟩
  · rw [max_comm (c - (r2 - 1/2) * (c * (2/1000))) c]
    exact le_add_of_nonneg_right h3r
  · rw [min_comm (c - (r2 - 1/2) * (c * (2/1000))) c]
    exact sub_le_self _ h4r
  · exact lt_of_lt_of_le hc (le_trans (le_max_left _ _) (le_add_of_nonneg_right h3r))

/-- Same as `genBarOK` with the `max(open, close)`/`min(open, close)`
orientation used by the long-horizon simulation. -/
theorem genBarOKFlip (sym src : String) (ts c r2 r3 r4 r5 : ℚ) (hc : 0 < c)
    (h2a : 0 ≤ r2) (h2b : r2 < 1) (h3a : 0 ≤ r3) (h3b : r3 < 1)
    (h4a : 0 ≤ r4) (h4b : r4 < 1) (h5a : 0 ≤ r5) :
    BarOK ⟨sym, ts, c - (r2 - 1/2) * (c * (2/1000)),
      max (c - (r2 - 1/2) * (c * (2/1000))) c + r3 * (c * (2/1000)),
      min (c - (r2 - 1/2) * (c * (2/1000))) c - r4 * (c * (2/1000)),
      c, Int.floor ((50000 : ℚ) + r5 * 150000), src⟩ := by
  obtain ⟨ho, hlo, h3r, h4r⟩ := genShapeOK c r2 r3 r4 hc h2a h2b h3a h3b h4a h4b
  unfold BarOK
  dsimp only
  refine ⟨le_add_of_nonneg_right h3r, sub_le_self _ h4r, ho, ?_, ?_, hc,
    volumeFloor_nonneg r5 h5a⟩
  · exact lt_of_lt_of_le hc (le_trans (le_max_right _ _) (le_add_of_nonneg_right h3r))
  · rw [min_comm (c - (r2 - 1/2) * (c * (2/1000))) c]
    exact hlo

theorem sampleBar_ok (env : Env) (henv : ValidEnv env) (sym : String) (N i : ℕ) :
    BarOK (sampleBar env sym N i) := by
  obtain ⟨hd, hq0, hq2, _, _⟩ := henv
  obtain ⟨h1a, h1b, h2a, h2b, h3a, h3b, h4a, h4b, h5a, h5b, hs30, hs8⟩ := hd i
  obtain ⟨hs30a, hs30b⟩ := abs_le.1 hs30
  obtain ⟨hs8a, hs8b⟩ := abs_le.1 hs8
  have hq16 : env.q288 ≤ 1/16 := by nlinarith
  have hvf1 : (15/1000) * env.q288 ≤ 1/1000 := by nlinarith
  have hcl : 0 < basePriceOf sym *
      (1 + ((env.draws i).s30 * 3 + (env.draws i).s8 * 2 + ((env.draws i).r1 - 1/2) * (3/2)) *
        ((15/1000) * env.q288)) :=
    mul_pos (basePriceOf_pos sym)
      (one_plus_noise_pos _ _ (by linarith) (by linarith) (by positivity) hvf1)
  exact genBarOK sym ("SIMULATED") _ _ _ _ _ _ hcl h2a h2b h3a h3b h4a h4b h5a

theorem simulatedBar_ok (env : Env) (henv : ValidEnv env) (sym : String) (N i : ℕ) :
    BarOK (simulatedBar env sym N i) := by
  obtain ⟨hd, _, _, _, _⟩ := henv
  obtain ⟨h1a, h1b, h2a, h2b, h3a, h3b, h4a, h4b, h5a, h5b, hs30, hs8⟩ := hd i
  obtain ⟨hs30a, hs30b⟩ := abs_le.1 hs30
  obtain ⟨hs8a, hs8b⟩ := abs_le.1 hs8
  have hcl : 0 < basePriceOf sym *
      (1 + ((env.draws i).s30 * 3 + (env.draws i).s8 * 2 + ((env.draws i).r1 - 1/2) * (3/2)) *
        (1/1000 : ℚ)) :=
    mul_pos (basePriceOf_pos sym)
      (one_plus_noise_pos _ _ (by linarith) (by linarith) (by norm_num) (by norm_num))
  exact genBarOK sym ("SIMULATED") _ _ _ _ _ _ hcl h2a h2b h3a h3b h4a h4b h5a

theorem histSimBar_ok (env : Env) (henv : ValidEnv env) (sym : String) (N i : ℕ)
    (price : ℚ) (hp : 0 < price) : BarOK (histSimBar env sym N i price) := by
  obtain ⟨hd, _, _, _, _⟩ := henv
  obtain ⟨h1a, h1b, h2a, h2b, h3a, h3b, h4a, h4b, h5a, h5b, hs30, hs8⟩ := hd i
  exact genBarOKFlip sym ("SIMULATED") _ _ _ _ _ _ hp h2a h2b h3a h3b h4a h4b h5a

theorem histSimStep_pos (env : Env) (henv : ValidEnv env) (price : ℚ) (i : ℕ)
    (hp : 0 < price) : 0 < histSimStep env price i := by
  obtain ⟨hd, _, _, hs0, hs2⟩ := henv
  obtain ⟨h1a, h1b, _⟩ := hd i
  have hs140 : 140 ≤ env.s19656 := by nlinarith
  have hs_pos : (0 : ℚ) < env.s19656 := by linarith
  have hiv0 : 0 ≤ (15/100 : ℚ) / env.s19656 := by positivity
  have hiv1 : (15/100 : ℚ) / env.s19656 ≤ 15/14000 := by
    rw [div_le_iff₀ hs_pos]
    nlinarith
  have hx0 : 0 ≤ ((15/100 : ℚ) / env.s19656) * ((env.draws i).r1 * 2 - 1 + 1) :=
    mul_nonneg hiv0 (by linarith)
  have hfac : 0 < 1 + (8/100 : ℚ) / 19656 +
      ((15/100) / env.s19656) * ((env.draws i).r1 * 2 - 1) := by
    nlinarith
  exact mul_pos hp hfac

theorem histSimGo_ok (env : Env) (henv : ValidEnv env) (sym : String) (N : ℕ) :
    ∀ (rem : ℕ) (price : ℚ) (i : ℕ), 0 < price →
      ∀ b ∈ histSimGo env sym N price i rem, BarOK b := by
  intro rem
  induction rem with
  | zero =>
    intro price i _ b hb
    simp [histSimGo] at hb
  | succ rem ih =>
    intro price i hp b hb
    rw [histSimGo] at hb
    rcases List.mem_cons.1 hb with rfl | hb
    · exact histSimBar_ok env henv sym N i _ (histSimStep_pos env henv price i hp)
    · exact ih _ _ (histSimStep_pos env henv price i hp) b hb

theorem fetchNewBar_ok (sym : String) (p tnow sqrtT : ℚ) (d : Draw)
    (hp : 0 < p) (hT : 0 ≤ sqrtT) (hd : ValidDraw d)
    (hbound : (7/10000) * sqrtT ≤ 999/1000) : BarOK (fetchNewBar sym p tnow sqrtT d) := by
  obtain ⟨h1a, h1b, h2a, h2b, h3a, h3b, h4a, h4b, _⟩ := hd
  have hf0 : 0 ≤ (7/10000) * sqrtT := by positivity
  have hu1 : -(1 : ℚ) ≤ (d.r1 - 1/2) * 2 := by linarith
  have hx0 : 0 ≤ ((d.r1 - 1/2) * 2 + 1) * ((7/10000) * sqrtT) :=
    mul_nonneg (by linarith) hf0
  have hnc : p * (1/1000) ≤ p + p * (d.r1 - 1/2) * 2 * ((7/10000) * sqrtT) := by
    have hkey : 0 ≤ p * (999/1000 + (d.r1 - 1/2) * 2 * ((7/10000) * sqrtT)) :=
      mul_nonneg hp.le (by nlinarith)
    nlinarith
  have hncpos : 0 < p + p * (d.r1 - 1/2) * 2 * ((7/10000) * sqrtT) := by nlinarith
  have hrange : 0 < p * (1/1000) := by nlinarith
  have hmin : p * (1/1000) ≤ min p (p + p * (d.r1 - 1/2) * 2 * ((7/10000) * sqrtT)) :=
    le_min (by nlinarith) hnc
  unfold fetchNewBar BarOK
  dsimp only
  refine ⟨le_add_of_nonneg_right (mul_nonneg h2a hrange.le), ?_, hp, ?_, ?_, hncpos,
    volumeFloor_nonneg d.r4 h4a⟩
  · exact sub_le_self _ (mul_nonneg h3a hrange.le)
  · exact lt_of_lt_of_le hp
      (le_trans (le_max_left _ _) (le_add_of_nonneg_right (mul_nonneg h2a hrange.le)))
  · have h3r : d.r3 * (p * (1/1000)) < p * (1/1000) := by nlinarith
    have := lt_of_lt_of_le (by linarith : (0 : ℚ) < p * (1/1000) - d.r3 * (p * (1/1000)))
      (by linarith [hmin] : p * (1/1000) - d.r3 * (p * (1/1000)) ≤
        min p (p + p * (d.r1 - 1/2) * 2 * ((7/10000) * sqrtT)) - d.r3 * (p * (1/1000)))
    exact this

/-- C3 counterexample: the incremental bar of `fetchMarketData` violates
the price-positivity invariant when the previous bar is old enough.
With `prevClose = 100`, an elapsed time of 4,000,000 minutes
(`√elapsed = 2000`, about 7.6 years) and the price draw at `0` — all
reachable inputs — the new close is `-40 < 0`. -/
theorem c3_counterexample :
    ValidDraw ⟨0, 0, 0, 0, 0, 0, 0⟩ ∧ (0 : ℚ) ≤ 2000 ∧ (0 : ℚ) < 100 ∧
    (fetchNewBar ("SPY") 100 0 2000 ⟨0, 0, 0, 0, 0, 0, 0⟩).close = -40 ∧
    ¬ BarOK (fetchNewBar ("SPY") 100 0 2000 ⟨0, 0, 0, 0, 0, 0, 0⟩) := by
  have hclose : (fetchNewBar ("SPY") 100 0 2000 ⟨0, 0, 0, 0, 0, 0, 0⟩).close = -40 := by
    norm_num [fetchNewBar]
  refine ⟨by decide, by norm_num, by norm_num, hclose, fun hok => ?_⟩
  have hpos := hok.2.2.2.2.2.1
  rw [hclose] at hpos
  norm_num at hpos

/-- C3 (amended): every bar produced by the backfill generator
(`generateSampleData`), the fallback generator
(`generateSimulatedData`) and the long-horizon simulation
(`generateHistoricalSimulation`) satisfies
`high ≥ max(open, close)`, `low ≤ min(open, close)`, positive prices and
nonnegative volume; the single incremental bar of `fetchMarketData`
satisfies them as well provided
`0.0007 · √(elapsed minutes) ≤ 0.999` (elapsed below about 2·10⁶
minutes) — beyond that bound the close can become nonpositive (see the
counterexample). -/
theorem c3_generated_bar_invariants (env : Env) (henv : ValidEnv env) :
    (∀ sym numPoints b, b ∈ generateSampleBars env sym numPoints → BarOK b) ∧
    (∀ sym numPoints b, b ∈ generateSimulatedData env sym numPoints → BarOK b) ∧
    (∀ sym numPoints b, b ∈ generateHistoricalSimulation env sym numPoints → BarOK b) ∧
    (∀ sym prevClose tnow sqrtT d, 0 < prevClose → 0 ≤ sqrtT → ValidDraw d →
      (7/10000) * sqrtT ≤ 999/1000 → BarOK (fetchNewBar sym prevClose tnow sqrtT d)) := by
  refine ⟨?_, ?_, ?_, ?_⟩
  · intro sym N b hb
    obtain ⟨i, _, rfl⟩ := List.mem_map.1 hb
    exact sampleBar_ok env henv sym N i
  · intro sym n b hb
    unfold generateSimulatedData at hb
    split_ifs at hb with hguard
    · simp at hb
    · obtain ⟨i, _, rfl⟩ := List.mem_map.1 hb
      exact simulatedBar_ok env henv sym n.toNat i
  · intro sym N b hb
    exact histSimGo_ok env henv sym N N _ 0 (basePriceOf_pos sym) b hb
  · intro sym prevClose tnow sqrtT d hp hT hd hbound
    exact fetchNewBar_ok sym prevClose tnow sqrtT d hp hT hd hbound

theorem c3_witness :
    BarOK (sampleBar env0 ("SPY") 1 0) ∧
    BarOK (simulatedBar env0 ("SPY") 1 0) ∧
    BarOK (histSimBar env0 ("SPY") 1 0 (histSimStep env0 (basePriceOf ("SPY")) 0)) ∧
    BarOK (fetchNewBar ("SPY") 100 0 1 draw0) := by
  have h := c3_generated_bar_invariants env0 env0_valid
  refine ⟨?_, ?_, ?_, ?_⟩
  · refine h.1 ("SPY") 1 _ ?_
    simp [generateSampleBars, List.range_succ]
  · refine h.2.1 ("SPY") 1 _ ?_
    simp [generateSimulatedData, List.range_succ]
  · refine h.2.2.1 ("SPY") 1 _ ?_
    simp [generateHistoricalSimulation, histSimGo]
  · exact h.2.2.2 ("SPY") 100 0 1 draw0 (by norm_num) (by norm_num) (by decide) (by norm_num)

theorem generateSampleData_storeFail (env : Env) (store : List Bar) (sym : String)
    (numPoints : ℤ) : generateSampleData env true store sym numPoints = .error () := by
  unfold generateSampleData
  split_ifs <;> simp_all

theorem generateSampleData_existing (env : Env) (store : List Bar) (sym : String)
    (numPoints : ℤ) (hs : sym ≠ "") (h1 : 0 < numPoints) (h2 : numPoints ≤ 1000)
    (hex : (store.filter fun b => b.symbol == sym) ≠ []) :
    generateSampleData env false store sym numPoints = .ok store := by
  unfold generateSampleData
  rw [if_neg (by push_neg; exact ⟨hs, by omega, by omega⟩)]
  rw [if_neg (by simp)]
  rw [if_pos hex]

theorem generateSampleData_fresh (env : Env) (store : List Bar) (sym : String)
    (numPoints : ℤ) (hs : sym ≠ "") (h1 : 0 < numPoints) (h2 : numPoints ≤ 1000)
    (hempty : (store.filter fun b => b.symbol == sym) = []) :
    generateSampleData env false store sym numPoints =
      .ok (store ++ generateSampleBars env sym numPoints.toNat) := by
  unfold generateSampleData
  rw [if_neg (by push_neg; exact ⟨hs, by omega, by omega⟩)]
  rw [if_neg (by simp)]
  rw [if_neg (not_not_intro hempty)]

theorem getLatestMarketData_storeFail (env : Env) (store : List Bar) (sym : String)
    (limit : ℤ) (hs : sym ≠ "") (h1 : 1 ≤ limit) (h2 : limit ≤ 1000) :
    getLatestMarketData env true store sym limit =
      (generateSimulatedData env sym limit, store, 1) := by
  unfold getLatestMarketData
  rw [if_neg (by push_neg; exact ⟨hs, by omega, by omega⟩)]
  rw [generateSampleData_storeFail env store sym (max limit 100)]

theorem getLatestMarketData_query (env : Env) (store : List Bar) (sym : String)
    (limit : ℤ) (hs : sym ≠ "") (h1 : 1 ≤ limit) (h2 : limit ≤ 1000)
    (hex : (store.filter fun b => b.symbol == sym) ≠ [])
    (hne : queryLatest store sym limit.toNat ≠ []) :
    getLatestMarketData env false store sym limit =
      ((queryLatest store sym limit.toNat).reverse, store, 0) := by
  unfold getLatestMarketData
  rw [if_neg (by push_neg; exact ⟨hs, by omega, by omega⟩)]
  rw [generateSampleData_existing env store sym (max limit 100) hs
    (lt_of_lt_of_le (by norm_num) (le_max_right limit 100))
    (max_le h2 (by norm_num)) hex]
  dsimp only
  rw [if_neg (by simp), if_neg hne]

theorem queryLatest_sorted (store : List Bar) (sym : String) (limit : ℕ) :
    (queryLatest store sym limit).Sorted fun a b : Bar => b.timestamp ≤ a.timestamp := by
  haveI : IsTotal Bar fun a b : Bar => b.timestamp ≤ a.timestamp :=
    ⟨fun a b => le_total b.timestamp a.timestamp⟩
  haveI : IsTrans Bar fun a b : Bar => b.timestamp ≤ a.timestamp :=
    ⟨fun a b c hab hbc => le_trans hbc hab⟩
  exact List.Pairwise.sublist (List.take_sublist _ _) (List.sorted_insertionSort _ _)

theorem queryLatest_symbol (store : List Bar) (sym : String) (limit : ℕ)
    (b : Bar) (hb : b ∈ queryLatest store sym limit) : b.symbol = sym := by
  unfold queryLatest at hb
  have h1 := List.mem_of_mem_take hb
  rw [List.mem_insertionSort] at h1
  have h2 := (List.mem_filter.1 h1).2
  simpa using h2

/-- C6: with 20 bars stored for `SPY`, `getLatestMarketData('SPY', 10)`
returns exactly 10 bars, sorted in ascending timestamp order, all with
symbol `SPY` (the query takes the 10 most recent in descending order and
reverses them). -/
theorem c6_latest_bars_shape (env : Env) (store : List Bar)
    (h20 : (store.filter fun b => b.symbol == "SPY").length = 20) :
    (getLatestMarketData env false store ("SPY") 10).1.length = 10 ∧
    (getLatestMarketData env false store ("SPY") 10).1.Sorted
      (fun a b : Bar => a.timestamp ≤ b.timestamp) ∧
    ∀ b ∈ (getLatestMarketData env false store ("SPY") 10).1, b.symbol = "SPY" := by
  have hex : (store.filter fun b => b.symbol == "SPY") ≠ [] := by
    intro h
    rw [h] at h20
    simp at h20
  have hqlen : (queryLatest store ("SPY") (10 : ℤ).toNat).length = 10 := by
    unfold queryLatest
    rw [List.length_take, List.length_insertionSort, h20]
    decide
  have hne : queryLatest store ("SPY") (10 : ℤ).toNat ≠ [] := by
    apply List.ne_nil_of_length_pos
    omega
  rw [getLatestMarketData_query env store ("SPY") 10 (by decide) (by norm_num) (by norm_num)
    hex hne]
  refine ⟨?_, ?_, ?_⟩
  · rw [List.length_reverse, hqlen]
  · exact List.pairwise_reverse.2 (queryLatest_sorted store ("SPY") _)
  · intro b hb
    rw [List.mem_reverse] at hb
    exact queryLatest_symbol store ("SPY") _ b hb

def store20 : List Bar :=
  (List.range 20).map fun i => ⟨"SPY", (i : ℚ), 100, 101, 99, 100, 1000, "SIMULATED"⟩

theorem c6_witness :
    (getLatestMarketData env0 false store20 ("SPY") 10).1.length = 10 ∧
    (getLatestMarketData env0 false store20 ("SPY") 10).1.Sorted
      (fun a b : Bar => a.timestamp ≤ b.timestamp) ∧
    ∀ b ∈ (getLatestMarketData env0 false store20 ("SPY") 10).1, b.symbol = "SPY" :=
  c6_latest_bars_shape env0 store20 (by decide)

/-- C9: when the persistence dependency fails during a read with
well-formed inputs, `getLatestMarketData` makes exactly one fallback
call to `generateSimulatedData`, returns its output, and that output is
a non-empty list of `limit` bars — the failure is never reported as an
empty successful result. -/
theorem c9_dependency_failure_fallback (env : Env) (store : List Bar) (sym : String)
    (limit : ℤ) (hs : sym ≠ "") (h1 : 1 ≤ limit) (h2 : limit ≤ 1000) :
    getLatestMarketData env true store sym limit =
      (generateSimulatedData env sym limit, store, 1) ∧
    (generateSimulatedData env sym limit).length = limit.toNat ∧
    generateSimulatedData env sym limit ≠ [] := by
  refine ⟨getLatestMarketData_storeFail env store sym limit hs h1 h2, ?_, ?_⟩
  · unfold generateSimulatedData
    rw [if_neg (by push_neg; exact ⟨hs, by omega, by omega⟩)]
    rw [List.length_map, List.length_range]
  · unfold generateSimulatedData
    rw [if_neg (by push_neg; exact ⟨hs, by omega, by omega⟩)]
    apply List.ne_nil_of_length_pos
    rw [List.length_map, List.length_range]
    omega

theorem c9_witness :
    getLatestMarketData env0 true [] "SPY" 3 =
      (generateSimulatedData env0 ("SPY") 3, [], 1) ∧
    (generateSimulatedData env0 ("SPY") 3).length = (3 : ℤ).toNat ∧
    generateSimulatedData env0 ("SPY") 3 ≠ [] :=
  c9_dependency_failure_fallback env0 [] "SPY" 3 (by decide) (by norm_num) (by norm_num)

/-- C10: a successful `getLatestMarketData` read on a symbol with no
stored bars first persists `max(limit, 100)` freshly generated bars for
that symbol (via `generateSampleData`) before querying; when bars
already exist for the symbol the store is left unchanged. -/
theorem c10_read_seeds_empty_store (env : Env) (store : List Bar) (sym : String)
    (limit : ℤ) (hs : sym ≠ "") (h1 : 1 ≤ limit) (h2 : limit ≤ 1000) :
    ((store.filter fun b => b.symbol == sym) = [] →
      (getLatestMarketData env false store sym limit).2.1 =
        store ++ generateSampleBars env sym (max limit 100).toNat ∧
      (generateSampleBars env sym (max limit 100).toNat).length = (max limit 100).toNat ∧
      ∀ b ∈ generateSampleBars env sym (max limit 100).toNat, b.symbol = sym) ∧
    ((store.filter fun b => b.symbol == sym) ≠ [] →
      (getLatestMarketData env false store sym limit).2.1 = store) := by
  have hb1 : (0 : ℤ) < max limit 100 :=
    lt_of_lt_of_le (by norm_num) (le_max_right limit 100)
  have hb2 : max limit 100 ≤ 1000 := max_le h2 (by norm_num)
  constructor
  · intro hempty
    refine ⟨?_, ?_, ?_⟩
    · unfold getLatestMarketData
      rw [if_neg (by push_neg; exact ⟨hs, by omega, by omega⟩)]
      rw [generateSampleData_fresh env store sym (max limit 100) hs hb1 hb2 hempty]
      dsimp only
      rw [if_neg (by simp)]
      split_ifs <;> rfl
    · rw [generateSampleBars, List.length_map, List.length_range]
    · intro b hb
      obtain ⟨i, _, rfl⟩ := List.mem_map.1 hb
      rfl
  · intro hex
    unfold getLatestMarketData
    rw [if_neg (by push_neg; exact ⟨hs, by omega, by omega⟩)]
    rw [generateSampleData_existing env store sym (max limit 100) hs hb1 hb2 hex]
    dsimp only
    rw [if_neg (by simp)]
    split_ifs <;> rfl

theorem c10_witness :
    (getLatestMarketData env0 false [] "AAPL" 5).2.1 =
      [] ++ generateSampleBars env0 ("AAPL") (max (5 : ℤ) 100).toNat ∧
    (generateSampleBars env0 ("AAPL") (max (5 : ℤ) 100).toNat).length =
      (max (5 : ℤ) 100).toNat := by
  have h := (c10_read_seeds_empty_store env0 [] "AAPL" 5 (by decide) (by norm_num)
    (by norm_num)).1 rfl
  exact ⟨h.1, h.2.1⟩
